import Mathlib

/-!
# SEC Financial Statement Reconstruction Engine — verification development

A shallow embedding of the statement-reconstruction core
(`src/core/reconstructor.py`, class `StatementReconstructor`) together with
proofs about it.

Modelling conventions:
* pandas DataFrames of numeric facts / presentation rows become `List Fact` /
  `List PRow`; the two external stores (`get_facts_by_adsh`,
  `get_statement_structure`) become explicit list parameters.
* Reporting dates (`ddate`, parsed in the source with
  `pd.to_datetime(..., format="%Y%m%d", errors="coerce")`) are modelled as
  `Option Nat`: `some d` is the parsed date as its YYYYMMDD numeral (so the
  numeric order coincides with chronological order), `none` is a missing or
  unparseable date (NaT).  Filters such as `ddate_ts.notna()` become
  `Option.isSome`.
* `qtrs` (nullable Int64 column) is `Option Int`; `value` (float column with
  NaN) is `Option Rat`; `coreg` / `segments` / `version` / `plabel`
  (string columns with NaN) are `Option String`.
* Python float arithmetic on fact values is modelled with exact rationals.
-/

namespace SecRecon

/-- Case-sensitive check that `pat` occurs as a contiguous substring of `s`,
on the character-list representation (used below always after `toLower`,
mirroring the source's case-insensitive `in` / `str.contains` tests). -/
def charsStartWith : List Char → List Char → Bool
  | _, [] => true
  | [], _ :: _ => false
  | a :: as, b :: bs => a == b && charsStartWith as bs

/-- Substring occurrence on character lists. -/
def charsContain (s pat : List Char) : Bool :=
  charsStartWith s pat ||
    match s with
    | [] => false
    | _ :: t => charsContain t pat

/-- `strContains s pat` models Python's `pat in s` substring test. -/
def strContains (s pat : String) : Bool :=
  charsContain s.data pat.data

/-- Character-wise lower-casing; models Python's `str.lower()` /
`str.contains(..., case=False)` on the (ASCII) concept tags and labels. -/
def strToLower (s : String) : String :=
  String.mk (s.data.map Char.toLower)

/-- Blank dimensional qualifier: the source treats both NaN and the empty
string as "no qualifier" (`df[col].isna() | (df[col] == "")`). -/
def blankQual : Option String → Bool
  | none => true
  | some s => s == ""

/-- Maximum of a nonempty list of naturals (0 for the empty list); models
`Series.max()` over parsed dates. -/
def listMax : List Nat → Nat
  | [] => 0
  | d :: ds => ds.foldl max d

/-- Minimum of a nonempty list of naturals (0 for the empty list); models
`Series.min()` over parsed dates. -/
def listMin : List Nat → Nat
  | [] => 0
  | d :: ds => ds.foldl min d

/-- Multiplicity of `v` in `xs` (used to model `Series.mode`). -/
def countOcc (xs : List Int) (v : Int) : Nat :=
  (xs.filter (fun x => x == v)).length

/-- `modeMin xs` models `Series.mode(dropna=True).iloc[0]` on the list of
non-null entries `xs`: pandas returns the modes in ascending sorted order, so
`iloc[0]` is the smallest value of maximal multiplicity.  `none` iff `xs` is
empty. -/
def modeMin (xs : List Int) : Option Int :=
  xs.foldl
    (fun acc v =>
      match acc with
      | none => some v
      | some b =>
          if countOcc xs v > countOcc xs b then some v
          else if countOcc xs v == countOcc xs b && v < b then some v
          else some b)
    none

/-- Mode with ties broken by first-encountered order — this follows the
spec's words ("ties in duration mode are broken by first-encountered order
(stable)"), for comparison with the pandas behaviour `modeMin`. -/
def modeFirst (xs : List Int) : Option Int :=
  xs.foldl
    (fun acc v =>
      match acc with
      | none => some v
      | some b => if countOcc xs v > countOcc xs b then some v else some b)
    none

/-- One numeric fact of `num.txt` restricted to one filing
(a row of `NumericParser.get_facts_by_adsh`). -/
structure Fact where
  tag : String
  version : Option String
  ddate : Option Nat
  qtrs : Option Int
  uom : Option String
  segments : Option String
  coreg : Option String
  value : Option Rat
  deriving Repr, DecidableEq

/-- One presentation row of `pre.txt` restricted to one filing and statement
(a row of `PresentationParser.get_statement_structure`). -/
structure PRow where
  report : Int
  line : Int
  inpth : Int
  rfile : Option String
  tag : String
  version : Option String
  plabel : Option String
  negating : Option String
  deriving Repr, DecidableEq

/-- One output row of `reconstruct_statement_table`.  The candidate
diagnostics are `Option`-valued because the comprehensive-income fallback
path emits rows without those columns. -/
structure StatementRow where
  adsh : String
  stmt : String
  report : Int
  line : Int
  inpth : Int
  rfile : Option String
  tag : String
  version : Option String
  label : String
  negating : Option String
  value : Option Rat
  displayValue : Option Rat
  formattedValue : Option String
  uom : Option String
  ddate : Option Nat
  qtrs : Option Int
  segments : Option String
  coreg : Option String
  candidateCount : Option Nat
  candidateUniqueValues : Option Nat
  candidateConflict : Option Bool
  hasValue : Bool
  deriving Repr, DecidableEq

/-- `BALANCE_SHEET_CODES`. -/
def BALANCE_SHEET_CODES : List String := ["BS", "BS-LND", "BS-ALT"]

/-- `_primary_context_rows`: prefer consolidated (no coreg / no segments)
rows, falling back to all rows when no consolidated row exists. -/
def primaryContextRows (df : List Fact) : List Fact :=
  if df.isEmpty then df
  else
    let primary := df.filter (fun f => blankQual f.coreg && blankQual f.segments)
    if primary.isEmpty then df else primary

/-- The cash-flow "forced negative" keyword test of `_apply_sign_rules`
(`any(x in tag_lower for x in ["payment", "repurchase", "repay",
"purchase"])`). -/
def cfNegKeyword (tag : String) : Bool :=
  ["payment", "repurchase", "repay", "purchase"].any
    (fun x => strContains (strToLower tag) x)

/-- The cash-flow "forced positive" keyword test of `_apply_sign_rules`
(`any(x in tag_lower for x in ["proceeds", "issuance", "borrowings",
"borrow"])`). -/
def cfPosKeyword (tag : String) : Bool :=
  ["proceeds", "issuance", "borrowings", "borrow"].any
    (fun x => strContains (strToLower tag) x)

/-- The equity "forced negative" keyword test of `_apply_sign_rules`
(`any(x in tag_lower for x in ["dividend", "repurchase", "purchases",
"payment"])`). -/
def eqNegKeyword (tag : String) : Bool :=
  ["dividend", "repurchase", "purchases", "payment"].any
    (fun x => strContains (strToLower tag) x)

/-- `_apply_sign_rules`: statement-aware sign handling.  `negating` is the
presentation row's negation flag compared against the string "1". -/
def applySignRules (stmtCode tag : String) (value : Rat) (negating : String) : Rat :=
  let signed := if negating == "1" then -value else value
  let signed :=
    if stmtCode == "CF" then
      if cfNegKeyword tag then -|signed|
      else if cfPosKeyword tag then |signed|
      else signed
    else signed
  if stmtCode == "EQ" then
    if eqNegKeyword tag then -|signed| else signed
  else signed

/-- Round-half-to-even to an integer (the rounding mode of Python's
builtin `round`). -/
def roundHalfEven (q : Rat) : Int :=
  let f := ⌊q⌋
  let r := q - (f : Rat)
  if r < 1/2 then f
  else if 1/2 < r then f + 1
  else if f % 2 == 0 then f else f + 1

/-- `round(x, 2)` scaled by 100: the integer `n` such that the rounded
value is `n / 100`. -/
def roundCents (q : Rat) : Int :=
  roundHalfEven (q * 100)

/-- Thousands grouping of the reversed digit list: inserts a comma after
every third character. -/
def revGroup3 : List Char → List Char
  | a :: b :: c :: d :: rest => a :: b :: c :: ',' :: revGroup3 (d :: rest)
  | l => l

/-- Thousands-grouped decimal rendering of a natural number
(models Python's format spec with a comma separator). -/
def commaNat (n : Nat) : String :=
  String.mk ((revGroup3 (Nat.toDigits 10 n).reverse).reverse)

/-- Two-digit zero-padded rendering of `m < 100`. -/
def twoDigits (m : Nat) : String :=
  (if m < 10 then "0" else "") ++ String.mk (Nat.toDigits 10 m)

/-- The unsigned text of a rounded value scaled by 100: a thousands-grouped
integer when whole, otherwise two fixed decimals. -/
def absCentsText (r : Int) : String :=
  if r % 100 == 0 then commaNat (r.natAbs / 100)
  else commaNat (r.natAbs / 100) ++ "." ++ twoDigits (r.natAbs % 100)

/-- `_format_display_value`: round to two decimals, thousands-group, render
whole numbers without decimals, wrap negatives in parentheses; `None`
formats to `None`. -/
def formatDisplayValue : Option Rat → Option String
  | none => none
  | some q =>
      let r := roundCents q
      some (if r < 0 then "(" ++ absCentsText r ++ ")" else absCentsText r)

/-- The cash roll-forward concept of the cash-flow statement. -/
def CASH_TAG : String :=
  "CashCashEquivalentsRestrictedCashAndRestrictedCashEquivalents"

/-- Date mode of `_select_fact_for_row`: exact match or strictly before the
target end date. -/
inductive DateMode
  | equal
  | before
  deriving Repr, DecidableEq

/-- Guarded narrowing: keep the filtered set only when it is nonempty,
otherwise keep the broader set (the `if not X.empty: matches = X` pattern of
`_select_fact_for_row`). -/
def narrow (s : List Fact) (p : Fact → Bool) : List Fact :=
  let t := s.filter p
  if t.isEmpty then s else t

/-- Parsed dates present in a list of facts. -/
def factDates (l : List Fact) : List Nat :=
  l.filterMap Fact.ddate

/-- `ddate_ts < target` (false when the date is missing). -/
def ltDate (f : Fact) (t : Nat) : Bool :=
  match f.ddate with
  | some d => decide (d < t)
  | none => false

/-- `ddate_ts == target`. -/
def eqDate (f : Fact) (t : Nat) : Bool :=
  f.ddate == some t

/-- Desired duration and date mode for one row
(`_select_fact_for_row`, lines 376–398). -/
def rowDuration (stmtCode tag label : String) (targetQtrs : Option Int) :
    Option Int × DateMode :=
  if BALANCE_SHEET_CODES.contains stmtCode then (some 0, .equal)
  else if stmtCode == "CF" && tag == CASH_TAG then
    if strContains label "beginning" then (some 0, .before) else (some 0, .equal)
  else if stmtCode == "EQ" then
    if strContains label "beginning" then (some 0, .before)
    else if strContains label "ending" then (some 0, .equal)
    else if strContains label "balance" && !strContains label "beginning" &&
        !strContains label "ending" then (some 0, .equal)
    else (targetQtrs, .equal)
  else (targetQtrs, .equal)

/-- Forced boundary-date selection for the CF cash begin/end rows
(`_select_fact_for_row`, lines 421–433). -/
def cfBoundaryNarrow (label : String) (targetEnd : Nat) (ms : List Fact) :
    List Fact :=
  if strContains label "beginning" then
    let prior := ms.filter (fun f => ltDate f targetEnd)
    if prior.isEmpty then ms
    else prior.filter (fun f => f.ddate == some (listMax (factDates prior)))
  else if strContains label "end" then
    narrow ms (fun f => eqDate f targetEnd)
  else ms

/-- Extra label-aware narrowing for EQ rows
(`_select_fact_for_row`, lines 436–448). -/
def eqLabelNarrow (label : String) (ms : List Fact) : List Fact :=
  if strContains label "beginning" then
    let narrowed := ms.filter (fun f => f.ddate == some (listMin (factDates ms)))
    if narrowed.isEmpty then ms else narrowed
  else if strContains label "ending" then
    let narrowed := ms.filter (fun f => f.ddate == some (listMax (factDates ms)))
    if narrowed.isEmpty then ms else narrowed
  else ms

/-- Ranking key `coreg_rank` of `_choose_preferred_fact`. -/
def coregRank (f : Fact) : Nat :=
  if blankQual f.coreg then 0 else 1

/-- Ranking key `segments_rank` of `_choose_preferred_fact`. -/
def segmentsRank (preferSegments : Bool) (f : Fact) : Nat :=
  if preferSegments then (if blankQual f.segments then 0 else 1) else 0

/-- Ranking key `abs_value` of `_choose_preferred_fact`
(`value.abs().fillna(0)`). -/
def absValueKey (f : Fact) : Rat :=
  |f.value.getD 0|

/-- Date sort key; NaT sorts last under the descending date order
(pandas `na_position="last"`). -/
def dateKey (f : Fact) : Int :=
  match f.ddate with
  | some d => (d : Int)
  | none => -1

/-- Strict "ranks ahead of" order of `_choose_preferred_fact`'s sort:
`coreg_rank` ascending, `segments_rank` ascending, `abs_value` descending,
date descending. -/
def factBefore (preferSegments : Bool) (a b : Fact) : Bool :=
  coregRank a < coregRank b ||
    (coregRank a == coregRank b &&
      (segmentsRank preferSegments a < segmentsRank preferSegments b ||
        (segmentsRank preferSegments a == segmentsRank preferSegments b &&
          (absValueKey b < absValueKey a ||
            (absValueKey a == absValueKey b && dateKey b < dateKey a)))))

/-- Fold step keeping the better-ranked of the accumulated best and the
next candidate (earlier candidate wins full-key ties). -/
def pickBetter (preferSegments : Bool) (best : Option Fact) (f : Fact) :
    Option Fact :=
  match best with
  | none => some f
  | some b => if factBefore preferSegments f b then some f else some b

/-- `_choose_preferred_fact`: the first row of the sorted candidates, i.e.
the earliest-encountered candidate that no later candidate strictly
outranks. -/
def choosePreferredFact (ms : List Fact) (preferSegments : Bool := true) :
    Option Fact :=
  ms.foldl (pickBetter preferSegments) none

/-- `matches["value"].dropna().nunique()`: distinct non-null values. -/
def uniqueValueCount (l : List Fact) : Nat :=
  (l.filterMap Fact.value).dedup.length

/-- Filter to the row's concept tag, and to its concept version when the row
specifies one (`_select_fact_for_row`, lines 370–372). -/
def tagVersionMatches (srow : PRow) (facts : List Fact) : List Fact :=
  let m := facts.filter (fun f => f.tag == srow.tag)
  match srow.version with
  | some v => m.filter (fun f => f.version == some v)
  | none => m

/-- Lower-cased row label.  (For a missing label the source computes
`str(nan) = "nan"`, which, like `""`, contains none of the tested
keywords.) -/
def rowLabel (srow : PRow) : String :=
  strToLower (srow.plabel.getD "")

/-- Candidates after the guarded desired-duration narrowing
(`_select_fact_for_row`, lines 400–403). -/
def qtrsNarrowed (stmtCode : String) (srow : PRow) (facts : List Fact)
    (targetQtrs : Option Int) : List Fact :=
  let m := tagVersionMatches srow facts
  match (rowDuration stmtCode srow.tag (rowLabel srow) targetQtrs).1 with
  | some q => narrow m (fun f => f.qtrs == some q)
  | none => m

/-- Candidates surviving the unguarded parseable-date filter
(`_select_fact_for_row`, lines 405–406). -/
def datedCandidates (stmtCode : String) (srow : PRow) (facts : List Fact)
    (targetQtrs : Option Int) : List Fact :=
  (qtrsNarrowed stmtCode srow facts targetQtrs).filter (fun f => f.ddate.isSome)

/-- Guarded date-mode filter (`_select_fact_for_row`, lines 410–418):
applied only when a target end date exists, and kept only when nonempty. -/
def dateModeNarrow (mode : DateMode) (targetDdate : Option Nat)
    (m3 : List Fact) : List Fact :=
  match targetDdate with
  | some te =>
      match mode with
      | .before => narrow m3 (fun f => ltDate f te)
      | .equal => narrow m3 (fun f => eqDate f te)
  | none => m3

/-- CF cash boundary stage (`_select_fact_for_row`, lines 421–433). -/
def cfStage (stmtCode tag label : String) (targetDdate : Option Nat)
    (m4 : List Fact) : List Fact :=
  match targetDdate with
  | some te =>
      if stmtCode == "CF" && tag == CASH_TAG then cfBoundaryNarrow label te m4
      else m4
  | none => m4

/-- EQ label stage (`_select_fact_for_row`, lines 436–448). -/
def eqStage (stmtCode label : String) (m5 : List Fact) : List Fact :=
  if stmtCode == "EQ" then eqLabelNarrow label m5 else m5

/-- The candidate set surviving all guarded narrowing stages of
`_select_fact_for_row` (lines 410–457): guarded date-mode filter, forced CF
cash boundary-date selection, EQ label narrowing, coreg preference, segment
preference, applied to the dated candidates. -/
def finalCandidates (stmtCode : String) (srow : PRow) (facts : List Fact)
    (targetDdate : Option Nat) (targetQtrs : Option Int) : List Fact :=
  let label := rowLabel srow
  let mode := (rowDuration stmtCode srow.tag label targetQtrs).2
  let m3 := datedCandidates stmtCode srow facts targetQtrs
  let m6 := eqStage stmtCode label
    (cfStage stmtCode srow.tag label targetDdate (dateModeNarrow mode targetDdate m3))
  narrow (narrow m6 (fun f => blankQual f.coreg)) (fun f => blankQual f.segments)

/-- `_select_fact_for_row`: returns the chosen fact (or `none`), the count of
facts matching at the final filter stage, and the count of distinct non-null
values among them. -/
def selectFactForRow (stmtCode : String) (srow : PRow) (facts : List Fact)
    (targetDdate : Option Nat) (targetQtrs : Option Int) :
    Option Fact × Nat × Nat :=
  let m1 := tagVersionMatches srow facts
  if m1.isEmpty then (none, 0, 0)
  else
    let m3 := datedCandidates stmtCode srow facts targetQtrs
    if m3.isEmpty then (none, 0, 0)
    else
      let m8 := finalCandidates stmtCode srow facts targetDdate targetQtrs
      (choosePreferredFact m8 (stmtCode != "EQ"), m8.length, uniqueValueCount m8)

/-- The tag-set / duration filter of `_resolve_statement_context`
(its inner `filter_candidates`). -/
def filterContextCandidates (stmtCode : String) (tags : List String)
    (source : List Fact) : List Fact :=
  let candidates := source.filter (fun f => tags.contains f.tag)
  if candidates.isEmpty then candidates
  else if BALANCE_SHEET_CODES.contains stmtCode then
    candidates.filter (fun f => f.qtrs == some 0)
  else
    candidates.filter (fun f =>
      match f.qtrs with
      | some q => decide (0 < q)
      | none => false)

/-- `_resolve_statement_context`: infer a single (ddate, qtrs) context for a
statement table. -/
def resolveStatementContext (allFacts : List Fact) (stmtCode : String)
    (tags : List String) : Option Nat × Option Int :=
  if allFacts.isEmpty then (none, none)
  else
    let facts0 := filterContextCandidates stmtCode tags (primaryContextRows allFacts)
    let facts1 :=
      if facts0.isEmpty then filterContextCandidates stmtCode tags allFacts
      else facts0
    if facts1.isEmpty then (none, none)
    else
      let dated := facts1.filter (fun f => f.ddate.isSome)
      if dated.isEmpty then (none, none)
      else
        let target := listMax (factDates dated)
        let sameDate := dated.filter (fun f => f.ddate == some target)
        (some target, modeMin (sameDate.filterMap Fact.qtrs))

/-- A fact qualifying for context resolution, per the spec's words (§4.1):
in the tag set, instant for balance-sheet-family codes and true duration for
all other codes. -/
def contextQualifies (stmtCode : String) (tags : List String) (f : Fact) : Bool :=
  tags.contains f.tag &&
    (if BALANCE_SHEET_CODES.contains stmtCode then f.qtrs == some 0
     else
       match f.qtrs with
       | some q => decide (0 < q)
       | none => false)

/-- Primary (consolidated) fact: no coreg and no segment qualifier. -/
def isPrimaryFact (f : Fact) : Bool :=
  blankQual f.coreg && blankQual f.segments

/-- Context resolution written from the spec's words (§4.1), with the
duration-mode tie broken by FIRST-ENCOUNTERED order as the spec states. -/
def resolveStatementContextSpecFirst (allFacts : List Fact) (stmtCode : String)
    (tags : List String) : Option Nat × Option Int :=
  let primary := allFacts.filter (fun f => contextQualifies stmtCode tags f && isPrimaryFact f)
  let pool :=
    if primary.isEmpty then allFacts.filter (contextQualifies stmtCode tags)
    else primary
  let dated := pool.filter (fun f => f.ddate.isSome)
  if dated.isEmpty then (none, none)
  else
    let d := listMax (factDates dated)
    (some d, modeFirst ((dated.filter (fun f => f.ddate == some d)).filterMap Fact.qtrs))

/-- Context resolution written from the spec's words (§4.1), amended so that
the duration-mode tie is broken by the SMALLEST duration value (what pandas
`mode().iloc[0]` returns). -/
def resolveStatementContextSpecMin (allFacts : List Fact) (stmtCode : String)
    (tags : List String) : Option Nat × Option Int :=
  let primary := allFacts.filter (fun f => contextQualifies stmtCode tags f && isPrimaryFact f)
  let pool :=
    if primary.isEmpty then allFacts.filter (contextQualifies stmtCode tags)
    else primary
  let dated := pool.filter (fun f => f.ddate.isSome)
  if dated.isEmpty then (none, none)
  else
    let d := listMax (factDates dated)
    (some d, modeMin ((dated.filter (fun f => f.ddate == some d)).filterMap Fact.qtrs))

/-- The candidate facts of the comprehensive-income fallback
(`_reconstruct_ci_fallback`, lines 186–214): tags containing
"ComprehensiveIncome" (case-insensitive), true durations, optionally pinned
to a caller date/duration, otherwise narrowed to the latest date and (when
the duration is unpinned) its duration mode. -/
def ciCandidates (facts : List Fact) (ddate : Option Nat) (qtrs : Option Int) :
    List Fact :=
  let f1 := facts.filter (fun f => strContains (strToLower f.tag) "comprehensiveincome")
  let f2 : List Fact := f1.filter (fun f =>
    match f.qtrs with
    | some q => decide (0 < q)
    | none => false)
  if f2.isEmpty then []
  else
    let f3 : List Fact :=
      match ddate with
      | some d => f2.filter (fun f => f.ddate == some d)
      | none => f2
    let f4 : List Fact :=
      match qtrs with
      | some q => f3.filter (fun f => f.qtrs == some q)
      | none => f3
    if f4.isEmpty then []
    else if ddate.isNone || qtrs.isNone then
      let dated := f4.filter (fun f => f.ddate.isSome)
      if dated.isEmpty then []
      else
        let latest := listMax (factDates dated)
        let atLatest := dated.filter (fun f => f.ddate == some latest)
        if qtrs.isNone then
          match modeMin (atLatest.filterMap Fact.qtrs) with
          | some m => atLatest.filter (fun f => f.qtrs == some m)
          | none => atLatest
        else atLatest
    else f4

/-- One synthetic CI row (`_reconstruct_ci_fallback`, lines 230–252). -/
def ciRow (adsh tag : String) (line : Nat) (chosen : Fact)
    (tagLabel : String → Option String) : StatementRow :=
  let rawValue := chosen.value
  let displayValue : Option Rat :=
    match rawValue with
    | some v => some (applySignRules "CI" tag v "0")
    | none => none
  -- `label or str(tag)`: an absent or empty label falls back to the tag.
  let label :=
    match tagLabel tag with
    | some l => if l == "" then tag else l
    | none => tag
  { adsh := adsh, stmt := "CI", report := 0, line := (line : Int), inpth := 0,
    rfile := some "D", tag := tag, version := chosen.version, label := label,
    negating := some "0", value := rawValue, displayValue := displayValue,
    formattedValue := formatDisplayValue displayValue, uom := chosen.uom,
    ddate := chosen.ddate, qtrs := chosen.qtrs, segments := chosen.segments,
    coreg := chosen.coreg, candidateCount := none,
    candidateUniqueValues := none, candidateConflict := none,
    hasValue := rawValue.isSome }

/-- The `for i, (tag, group) in enumerate(facts.groupby("tag"), start=1)`
loop: one row per tag group, the index advancing even when a group is
skipped. -/
def ciRows (adsh : String) (cand : List Fact) (tagLabel : String → Option String) :
    Nat → List String → List StatementRow
  | _, [] => []
  | i, t :: ts =>
      match choosePreferredFact (cand.filter (fun f => f.tag == t)) true with
      | none => ciRows adsh cand tagLabel (i + 1) ts
      | some c => ciRow adsh t i c tagLabel :: ciRows adsh cand tagLabel (i + 1) ts

/-- Ordering of output rows by line number (the trailing
`sort_values(["line"])`). -/
def lineLe (a b : StatementRow) : Prop :=
  a.line ≤ b.line

instance : DecidableRel lineLe := fun a b =>
  inferInstanceAs (Decidable (a.line ≤ b.line))

instance : IsTotal StatementRow lineLe :=
  ⟨fun a b => le_total a.line b.line⟩

instance : IsTrans StatementRow lineLe :=
  ⟨fun _ _ _ h₁ h₂ => le_trans h₁ h₂⟩

/-- `_reconstruct_ci_fallback`: build the CI table from `num.txt` when no
standalone CI structure exists in `pre.txt`.  Pandas `groupby("tag")` visits
the tag groups in ascending sorted order. -/
def reconstructCiFallback (adsh : String) (facts : List Fact) (ddate : Option Nat)
    (qtrs : Option Int) (tagLabel : String → Option String) : List StatementRow :=
  if facts.isEmpty then []
  else
    let cand := ciCandidates facts ddate qtrs
    let tags := ((cand.map Fact.tag).dedup).insertionSort (fun a b => a ≤ b)
    (ciRows adsh cand tagLabel 1 tags).insertionSort lineLe

/-- Presentation order: ascending (report, line). -/
def structLe (a b : PRow) : Prop :=
  a.report < b.report ∨ (a.report = b.report ∧ a.line ≤ b.line)

instance : DecidableRel structLe := fun a b =>
  inferInstanceAs (Decidable (a.report < b.report ∨ (a.report = b.report ∧ a.line ≤ b.line)))

instance : IsTotal PRow structLe where
  total a b := by
    unfold structLe
    rcases lt_trichotomy a.report b.report with h | h | h
    · exact Or.inl (Or.inl h)
    · rcases le_total a.line b.line with h' | h'
      · exact Or.inl (Or.inr ⟨h, h'⟩)
      · exact Or.inr (Or.inr ⟨h.symm, h'⟩)
    · exact Or.inr (Or.inl h)

instance : IsTrans PRow structLe where
  trans a b c hab hbc := by
    unfold structLe at *
    rcases hab with h₁ | ⟨e₁, l₁⟩
    · rcases hbc with h₂ | ⟨e₂, _⟩
      · exact Or.inl (h₁.trans h₂)
      · exact Or.inl (e₂ ▸ h₁)
    · rcases hbc with h₂ | ⟨e₂, l₂⟩
      · exact Or.inl (e₁ ▸ h₂)
      · exact Or.inr ⟨e₁.trans e₂, l₁.trans l₂⟩

/-- `structure.sort_values(["report", "line"])`. -/
def sortStructure (rows : List PRow) : List PRow :=
  rows.insertionSort structLe

/-- One output row of the structure-driven path
(`reconstruct_statement_table`, lines 519–577). -/
def buildRow (adsh stmtCode : String) (targetDdate : Option Nat)
    (targetQtrs : Option Int) (factsInTags : List Fact) (srow : PRow) :
    StatementRow :=
  let sel := selectFactForRow stmtCode srow factsInTags targetDdate targetQtrs
  let chosen := sel.1
  let value : Option Rat :=
    match chosen with
    | some c => c.value
    | none => none
  -- `str(srow.get("negating", "0"))`: a missing flag stringifies to "nan",
  -- which like "" differs from "1", so no negation happens either way.
  let displayValue : Option Rat :=
    match value with
    | some v => some (applySignRules stmtCode srow.tag v (srow.negating.getD ""))
    | none => none
  { adsh := adsh, stmt := stmtCode, report := srow.report, line := srow.line,
    inpth := srow.inpth, rfile := srow.rfile, tag := srow.tag,
    version := srow.version, label := srow.plabel.getD srow.tag,
    negating := srow.negating, value := value, displayValue := displayValue,
    formattedValue := formatDisplayValue displayValue,
    uom := match chosen with | some c => c.uom | none => none,
    ddate := match chosen with | some c => c.ddate | none => targetDdate,
    qtrs := match chosen with | some c => c.qtrs | none => targetQtrs,
    segments := match chosen with | some c => c.segments | none => none,
    coreg := match chosen with | some c => c.coreg | none => none,
    candidateCount := some sel.2.1,
    candidateUniqueValues := some sel.2.2,
    candidateConflict := some (decide (1 < sel.2.1) && decide (1 < sel.2.2)),
    hasValue := value.isSome }

/-- `reconstruct_statement_table`: reconstruct one statement as a
row-accurate table from `pre.txt` + `num.txt`.  The two stores are passed as
lists (`structureRows` = `get_statement_structure(adsh, stmt_code)`,
`facts` = `get_facts_by_adsh(adsh)`); `tagLabel` is the tag store's
`get_tag_label`. -/
def reconstructStatementTable (adsh : String) (structureRows : List PRow)
    (facts : List Fact) (stmtCode : String) (ddate : Option Nat)
    (qtrs : Option Int) (tagLabel : String → Option String) :
    List StatementRow :=
  if structureRows.isEmpty then
    if stmtCode == "CI" then reconstructCiFallback adsh facts ddate qtrs tagLabel
    else []
  else
    let sorted := sortStructure structureRows
    let tagSet := sorted.map PRow.tag
    let inferred :=
      if ddate.isNone || qtrs.isNone then
        resolveStatementContext facts stmtCode tagSet
      else (none, none)
    let targetDdate := if ddate.isNone then inferred.1 else ddate
    let targetQtrs := if qtrs.isNone then inferred.2 else qtrs
    let factsInTags := facts.filter (fun f => tagSet.contains f.tag)
    sorted.map (buildRow adsh stmtCode targetDdate targetQtrs factsInTags)

/-- Result record of `_context_coherence_for_statement`. -/
structure CoherenceResult where
  passed : Bool
  contexts : List (Option Nat × Option Int)
  rule : String
  deriving Repr, DecidableEq

/-- Distinct (ddate, qtrs) pairs among valued rows
(`table[table["has_value"]][["ddate", "qtrs"]].drop_duplicates()`).
`List.dedup` may order the distinct pairs differently from pandas, but every
check below depends only on which pairs appear and how many there are. -/
def valuedContexts (table : List StatementRow) : List (Option Nat × Option Int) :=
  ((table.filter StatementRow.hasValue).map (fun r => (r.ddate, r.qtrs))).dedup

/-- Distinct duration contexts (`valued[valued["qtrs"] > 0]`). -/
def durationContexts (table : List StatementRow) : List (Option Nat × Option Int) :=
  (valuedContexts table).filter (fun c =>
    match c.2 with
    | some q => decide (0 < q)
    | none => false)

/-- Distinct instant contexts (`valued[valued["qtrs"] == 0]`). -/
def instantContexts (table : List StatementRow) : List (Option Nat × Option Int) :=
  (valuedContexts table).filter (fun c => c.2 == some 0)

/-- `_context_coherence_for_statement`: statement-aware context coherence
validation. -/
def contextCoherenceForStatement (stmtCode : String) (table : List StatementRow) :
    CoherenceResult :=
  if table.isEmpty then ⟨true, [], "empty"⟩
  else
    let valued := valuedContexts table
    if valued.isEmpty then ⟨true, [], "no_valued_rows"⟩
    else if stmtCode == "CF" then
      ⟨decide ((durationContexts table).length ≤ 1) &&
        decide ((instantContexts table).length ≤ 2),
       valued, "cf_duration_plus_begin_end_instant"⟩
    else if stmtCode == "EQ" then ⟨true, valued, "eq_multi_context_allowed"⟩
    else ⟨decide (valued.length ≤ 1), valued, "single_context"⟩

/-- One entry of `_run_subtotal_checks`'s output list. -/
structure SubtotalCheck where
  name : String
  passed : Bool
  delta : Rat
  deltaWithFx : Option Rat
  usedFormula : Option String
  deriving Repr, DecidableEq

/-- Net-change-in-cash concept of the CF subtotal check. -/
def NET_CASH_TAG : String :=
  "CashCashEquivalentsRestrictedCashAndRestrictedCashEquivalentsPeriodIncreaseDecreaseIncludingExchangeRateEffect"

/-- Exchange-rate-effect concept of the CF subtotal check. -/
def FX_TAG : String :=
  "EffectOfExchangeRateOnCashCashEquivalentsRestrictedCashAndRestrictedCashEquivalents"

/-- `_run_subtotal_checks`: lightweight subtotal/consistency checks.
`float(series.iloc[0])` on a valued pipeline row reads its display value,
which is always present on such rows (see the has-value theorems below);
`Option.getD 0` models that read. -/
def runSubtotalChecks (stmtCode : String) (table : List StatementRow) :
    List SubtotalCheck :=
  if table.isEmpty then []
  else
    let valued := table.filter StatementRow.hasValue
    if valued.isEmpty then []
    else
      let bsChecks : List SubtotalCheck :=
        if stmtCode == "BS" then
          let assets := valued.filter (fun r => r.tag == "Assets")
          let liabEq := valued.filter (fun r => r.tag == "LiabilitiesAndStockholdersEquity")
          match assets.head?, liabEq.head? with
          | some ra, some rl =>
              let av := ra.displayValue.getD 0
              let lv := rl.displayValue.getD 0
              let delta := av - lv
              [⟨"assets_equals_liabilities_and_equity", decide (|delta| < 1),
                delta, none, none⟩]
          | _, _ => []
        else []
      let cfChecks : List SubtotalCheck :=
        if stmtCode == "CF" then
          let net := valued.filter (fun r => r.tag == NET_CASH_TAG)
          let fx := valued.filter (fun r => r.tag == FX_TAG)
          let cashRows := valued.filter (fun r =>
            r.tag == CASH_TAG && r.qtrs == some 0)
          let begins := cashRows.filter (fun r => strContains (strToLower r.label) "beginning")
          let endRows := cashRows.filter (fun r => strContains (strToLower r.label) "end")
          match net.head?, begins.head?, endRows.head? with
          | some rn, some rb, some rEnd =>
              let netV := rn.displayValue.getD 0
              let calcV := rEnd.displayValue.getD 0 - rb.displayValue.getD 0
              let deltaDirect := netV - calcV
              let fxV :=
                match fx.head? with
                | some rf => rf.displayValue.getD 0
                | none => 0
              let deltaWithFx := (netV + fxV) - calcV
              let passed := decide (|deltaDirect| < 1) || decide (|deltaWithFx| < 1)
              let used :=
                if |deltaDirect| < 1 then "direct"
                else if |deltaWithFx| < 1 then "with_fx"
                else "none"
              [⟨"cash_rollforward_consistency", passed, deltaDirect,
                some deltaWithFx, some used⟩]
          | _, _, _ => []
        else []
      bsChecks ++ cfChecks

/-! ## Helper lemmas -/

theorem narrow_subset {s : List Fact} {p : Fact → Bool} {x : Fact}
    (h : x ∈ narrow s p) : x ∈ s := by
  unfold narrow at h
  by_cases he : (s.filter p).isEmpty
  · simpa [he] using h
  · simp only [he, if_false] at h
    exact List.mem_of_mem_filter h

theorem narrow_ne_nil {s : List Fact} {p : Fact → Bool} (h : s ≠ []) :
    narrow s p ≠ [] := by
  unfold narrow
  by_cases he : (s.filter p).isEmpty
  · simpa [he] using h
  · simp only [he, if_false]
    simpa [List.isEmpty_iff] using he

theorem foldl_max_eq_or_mem :
    ∀ (l : List Nat) (a : Nat), l.foldl max a = a ∨ l.foldl max a ∈ l := by
  intro l
  induction l with
  | nil => intro a; exact Or.inl rfl
  | cons x xs ih =>
      intro a
      rw [List.foldl_cons]
      rcases ih (max a x) with h | h
      · rw [h]
        rcases max_choice a x with h' | h'
        · exact Or.inl h'
        · refine Or.inr ?_
          rw [h']
          exact List.mem_cons_self x xs
      · exact Or.inr (List.mem_cons_of_mem x h)

theorem listMax_mem {l : List Nat} (h : l ≠ []) : listMax l ∈ l := by
  cases l with
  | nil => exact absurd rfl h
  | cons d ds =>
      show ds.foldl max d ∈ d :: ds
      rcases foldl_max_eq_or_mem ds d with h' | h'
      · rw [h']
        exact List.mem_cons_self d ds
      · exact List.mem_cons_of_mem d h'

theorem filter_eq_maxDate_ne_nil {l : List Fact} (h : l ≠ [])
    (hd : ∀ f ∈ l, f.ddate.isSome) :
    l.filter (fun f => f.ddate == some (listMax (factDates l))) ≠ [] := by
  have hfd : factDates l ≠ [] := by
    cases l with
    | nil => exact absurd rfl h
    | cons x xs =>
        have hx := hd x (List.mem_cons_self x xs)
        unfold factDates
        cases hx' : x.ddate with
        | none => rw [hx'] at hx; simp at hx
        | some d => simp [List.filterMap_cons, hx']
  have hmem := listMax_mem hfd
  unfold factDates at hmem
  rw [List.mem_filterMap] at hmem
  obtain ⟨f, hf, hfval⟩ := hmem
  intro hcontra
  have hmem' : f ∈ l.filter (fun f => f.ddate == some (listMax (factDates l))) := by
    rw [List.mem_filter]
    refine ⟨hf, ?_⟩
    unfold factDates
    simp [hfval]
  rw [hcontra] at hmem'
  exact absurd hmem' (List.not_mem_nil f)

theorem foldl_pickBetter_some (ps : Bool) :
    ∀ (l : List Fact) (b : Fact),
      ∃ c, l.foldl (pickBetter ps) (some b) = some c ∧ (c = b ∨ c ∈ l) := by
  intro l
  induction l with
  | nil => intro b; exact ⟨b, rfl, Or.inl rfl⟩
  | cons x xs ih =>
      intro b
      rw [List.foldl_cons]
      show ∃ c, xs.foldl (pickBetter ps)
        (if factBefore ps x b then some x else some b) = some c ∧ _
      by_cases hx : factBefore ps x b
      · rw [if_pos hx]
        obtain ⟨c, hc, hmem⟩ := ih x
        refine ⟨c, hc, Or.inr ?_⟩
        rcases hmem with e | m
        · exact e ▸ List.mem_cons_self x xs
        · exact List.mem_cons_of_mem x m
      · rw [if_neg hx]
        obtain ⟨c, hc, hmem⟩ := ih b
        refine ⟨c, hc, ?_⟩
        rcases hmem with e | m
        · exact Or.inl e
        · exact Or.inr (List.mem_cons_of_mem x m)

theorem choosePreferredFact_some (ps : Bool) {l : List Fact} (h : l ≠ []) :
    ∃ c, choosePreferredFact l ps = some c ∧ c ∈ l := by
  cases l with
  | nil => exact absurd rfl h
  | cons x xs =>
      obtain ⟨c, hc, hmem⟩ := foldl_pickBetter_some ps xs x
      refine ⟨c, hc, ?_⟩
      rcases hmem with e | m
      · exact e ▸ List.mem_cons_self x xs
      · exact List.mem_cons_of_mem x m

theorem choosePreferredFact_mem {ps : Bool} {l : List Fact} {f : Fact}
    (h : choosePreferredFact l ps = some f) : f ∈ l := by
  cases l with
  | nil => simp [choosePreferredFact] at h
  | cons x xs =>
      obtain ⟨c, hc, hmem⟩ := choosePreferredFact_some ps (l := x :: xs) (by simp)
      rw [h] at hc
      cases hc
      exact hmem

theorem choosePreferredFact_eq_none {ps : Bool} {l : List Fact} :
    choosePreferredFact l ps = none ↔ l = [] := by
  constructor
  · intro h
    by_contra hne
    obtain ⟨c, hc, _⟩ := choosePreferredFact_some ps hne
    rw [h] at hc
    cases hc
  · rintro rfl
    rfl

theorem uniqueValueCount_le_length (l : List Fact) :
    uniqueValueCount l ≤ l.length := by
  unfold uniqueValueCount
  calc (l.filterMap Fact.value).dedup.length
      ≤ (l.filterMap Fact.value).length := (List.dedup_sublist _).length_le
    _ ≤ l.length := l.length_filterMap_le Fact.value

theorem cfBoundaryNarrow_subset {lbl : String} {te : Nat} {m : List Fact}
    {x : Fact} (h : x ∈ cfBoundaryNarrow lbl te m) : x ∈ m := by
  unfold cfBoundaryNarrow at h
  by_cases hb : strContains lbl "beginning"
  · rw [if_pos hb] at h
    by_cases hp : (m.filter (fun f => ltDate f te)).isEmpty
    · simpa [hp] using h
    · rw [if_neg hp] at h
      exact List.mem_of_mem_filter (List.mem_of_mem_filter h)
  · rw [if_neg hb] at h
    by_cases he : strContains lbl "end"
    · rw [if_pos he] at h
      exact narrow_subset h
    · rwa [if_neg he] at h

theorem cfBoundaryNarrow_ne_nil {lbl : String} {te : Nat} {m : List Fact}
    (h : m ≠ []) (hd : ∀ f ∈ m, f.ddate.isSome) :
    cfBoundaryNarrow lbl te m ≠ [] := by
  unfold cfBoundaryNarrow
  by_cases hb : strContains lbl "beginning"
  · rw [if_pos hb]
    by_cases hp : (m.filter (fun f => ltDate f te)).isEmpty
    · simpa [hp] using h
    · rw [if_neg hp]
      apply filter_eq_maxDate_ne_nil
      · simpa [List.isEmpty_iff] using hp
      · intro f hf
        exact hd f (List.mem_of_mem_filter hf)
  · rw [if_neg hb]
    by_cases he : strContains lbl "end"
    · rw [if_pos he]
      exact narrow_ne_nil h
    · rwa [if_neg he]

theorem eqLabelNarrow_subset {lbl : String} {m : List Fact} {x : Fact}
    (h : x ∈ eqLabelNarrow lbl m) : x ∈ m := by
  unfold eqLabelNarrow at h
  by_cases hb : strContains lbl "beginning"
  · rw [if_pos hb] at h
    by_cases hn : (m.filter
        (fun f => f.ddate == some (listMin (factDates m)))).isEmpty
    · simpa [hn] using h
    · rw [if_neg hn] at h
      exact List.mem_of_mem_filter h
  · rw [if_neg hb] at h
    by_cases he : strContains lbl "ending"
    · rw [if_pos he] at h
      by_cases hn : (m.filter
          (fun f => f.ddate == some (listMax (factDates m)))).isEmpty
      · simpa [hn] using h
      · rw [if_neg hn] at h
        exact List.mem_of_mem_filter h
    · rwa [if_neg he] at h

theorem eqLabelNarrow_ne_nil {lbl : String} {m : List Fact} (h : m ≠ []) :
    eqLabelNarrow lbl m ≠ [] := by
  unfold eqLabelNarrow
  by_cases hb : strContains lbl "beginning"
  · rw [if_pos hb]
    by_cases hn : (m.filter
        (fun f => f.ddate == some (listMin (factDates m)))).isEmpty
    · simpa [hn] using h
    · rw [if_neg hn]
      simpa [List.isEmpty_iff] using hn
  · rw [if_neg hb]
    by_cases he : strContains lbl "ending"
    · rw [if_pos he]
      by_cases hn : (m.filter
          (fun f => f.ddate == some (listMax (factDates m)))).isEmpty
      · simpa [hn] using h
      · rw [if_neg hn]
        simpa [List.isEmpty_iff] using hn
    · rw [if_neg he]
      exact h

theorem dateModeNarrow_subset {mode : DateMode} {tdd : Option Nat}
    {m3 : List Fact} {x : Fact} (h : x ∈ dateModeNarrow mode tdd m3) :
    x ∈ m3 := by
  unfold dateModeNarrow at h
  cases tdd with
  | none => exact h
  | some te => cases mode <;> exact narrow_subset h

theorem dateModeNarrow_ne_nil {mode : DateMode} {tdd : Option Nat}
    {m3 : List Fact} (h : m3 ≠ []) : dateModeNarrow mode tdd m3 ≠ [] := by
  unfold dateModeNarrow
  cases tdd with
  | none => exact h
  | some te => cases mode <;> exact narrow_ne_nil h

theorem cfStage_subset {stmtCode tag label : String} {tdd : Option Nat}
    {m4 : List Fact} {x : Fact} (h : x ∈ cfStage stmtCode tag label tdd m4) :
    x ∈ m4 := by
  unfold cfStage at h
  cases tdd with
  | none => exact h
  | some te =>
      dsimp only at h
      by_cases hc : (stmtCode == "CF" && tag == CASH_TAG) = true
      · rw [if_pos hc] at h
        exact cfBoundaryNarrow_subset h
      · rwa [if_neg hc] at h

theorem cfStage_ne_nil {stmtCode tag label : String} {tdd : Option Nat}
    {m4 : List Fact} (h : m4 ≠ []) (hd : ∀ f ∈ m4, f.ddate.isSome) :
    cfStage stmtCode tag label tdd m4 ≠ [] := by
  unfold cfStage
  cases tdd with
  | none => exact h
  | some te =>
      dsimp only
      by_cases hc : (stmtCode == "CF" && tag == CASH_TAG) = true
      · rw [if_pos hc]
        exact cfBoundaryNarrow_ne_nil h hd
      · rwa [if_neg hc]

theorem eqStage_subset {stmtCode label : String} {m5 : List Fact} {x : Fact}
    (h : x ∈ eqStage stmtCode label m5) : x ∈ m5 := by
  unfold eqStage at h
  by_cases hc : (stmtCode == "EQ") = true
  · rw [if_pos hc] at h
    exact eqLabelNarrow_subset h
  · rwa [if_neg hc] at h

theorem eqStage_ne_nil {stmtCode label : String} {m5 : List Fact}
    (h : m5 ≠ []) : eqStage stmtCode label m5 ≠ [] := by
  unfold eqStage
  by_cases hc : (stmtCode == "EQ") = true
  · rw [if_pos hc]
    exact eqLabelNarrow_ne_nil h
  · rwa [if_neg hc]

theorem mem_datedCandidates {stmtCode : String} {srow : PRow}
    {facts : List Fact} {tq : Option Int} {f : Fact}
    (h : f ∈ datedCandidates stmtCode srow facts tq) :
    f ∈ facts ∧ f.tag = srow.tag ∧ f.ddate.isSome = true := by
  unfold datedCandidates at h
  rw [List.mem_filter] at h
  obtain ⟨hq, hds⟩ := h
  have htv : f ∈ tagVersionMatches srow facts := by
    unfold qtrsNarrowed at hq
    dsimp only at hq
    cases hrd : (rowDuration stmtCode srow.tag (rowLabel srow) tq).1 with
    | none => rw [hrd] at hq; exact hq
    | some q => rw [hrd] at hq; exact narrow_subset hq
  unfold tagVersionMatches at htv
  dsimp only at htv
  have hft : f ∈ facts.filter (fun f => f.tag == srow.tag) := by
    cases hv : srow.version with
    | none => rw [hv] at htv; exact htv
    | some v => rw [hv] at htv; exact List.mem_of_mem_filter htv
  rw [List.mem_filter] at hft
  exact ⟨hft.1, by simpa using hft.2, hds⟩

theorem datedCandidates_all_dated {stmtCode : String} {srow : PRow}
    {facts : List Fact} {tq : Option Int} :
    ∀ f ∈ datedCandidates stmtCode srow facts tq, f.ddate.isSome = true := by
  intro f h
  exact (mem_datedCandidates h).2.2

theorem finalCandidates_subset {stmtCode : String} {srow : PRow}
    {facts : List Fact} {tdd : Option Nat} {tq : Option Int} {x : Fact}
    (h : x ∈ finalCandidates stmtCode srow facts tdd tq) :
    x ∈ datedCandidates stmtCode srow facts tq := by
  unfold finalCandidates at h
  exact dateModeNarrow_subset (cfStage_subset (eqStage_subset
    (narrow_subset (narrow_subset h))))

theorem finalCandidates_ne_nil {stmtCode : String} {srow : PRow}
    {facts : List Fact} {tdd : Option Nat} {tq : Option Int}
    (h : datedCandidates stmtCode srow facts tq ≠ []) :
    finalCandidates stmtCode srow facts tdd tq ≠ [] := by
  unfold finalCandidates
  apply narrow_ne_nil
  apply narrow_ne_nil
  apply eqStage_ne_nil
  apply cfStage_ne_nil (dateModeNarrow_ne_nil h)
  intro f hf
  exact datedCandidates_all_dated f (dateModeNarrow_subset hf)

theorem datedCandidates_of_tagVersion_nil {stmtCode : String} {srow : PRow}
    {facts : List Fact} {tq : Option Int}
    (h : tagVersionMatches srow facts = []) :
    datedCandidates stmtCode srow facts tq = [] := by
  unfold datedCandidates qtrsNarrowed
  rw [h]
  cases (rowDuration stmtCode srow.tag (rowLabel srow) tq).1 <;>
    simp [narrow]

/-- C3: the fact selector returns the clean "no fact" triple `(none, 0, 0)`
instead of raising when no candidate survives; it yields a fact exactly when
some tag/version-matching candidate with the desired duration and a
parseable date exists — every subsequent narrowing step (date-mode filter,
forced boundary-date selection, coreg preference, segment preference) is
applied only if it leaves at least one candidate, so it never empties a
nonempty candidate set — and the chosen fact always comes from that dated
candidate set (no filter is silently widened). -/
theorem claimC3_selection_narrowing (stmtCode : String) (srow : PRow)
    (facts : List Fact) (tdd : Option Nat) (tq : Option Int) :
    ((selectFactForRow stmtCode srow facts tdd tq).1 = none →
      selectFactForRow stmtCode srow facts tdd tq = (none, 0, 0)) ∧
    (((selectFactForRow stmtCode srow facts tdd tq).1).isSome = true ↔
      datedCandidates stmtCode srow facts tq ≠ []) ∧
    (∀ f, (selectFactForRow stmtCode srow facts tdd tq).1 = some f →
      f ∈ datedCandidates stmtCode srow facts tq ∧ f ∈ facts ∧
        f.tag = srow.tag) := by
  unfold selectFactForRow
  by_cases h1 : (tagVersionMatches srow facts).isEmpty
  · rw [if_pos h1]
    have hd : datedCandidates stmtCode srow facts tq = [] :=
      datedCandidates_of_tagVersion_nil (List.isEmpty_iff.mp h1)
    refine ⟨fun _ => rfl, ?_, ?_⟩
    · simp [hd]
    · intro f hf
      cases hf
  · rw [if_neg h1]
    by_cases h3 : (datedCandidates stmtCode srow facts tq).isEmpty
    · rw [if_pos h3]
      refine ⟨fun _ => rfl, ?_, ?_⟩
      · simp [List.isEmpty_iff.mp h3]
      · intro f hf
        cases hf
    · rw [if_neg h3]
      dsimp only
      have hne : datedCandidates stmtCode srow facts tq ≠ [] := by
        simpa [List.isEmpty_iff] using h3
      have hfin : finalCandidates stmtCode srow facts tdd tq ≠ [] :=
        finalCandidates_ne_nil hne
      obtain ⟨c, hc, hcmem⟩ :=
        choosePreferredFact_some (stmtCode != "EQ") hfin
      refine ⟨?_, ?_, ?_⟩
      · intro habs
        rw [hc] at habs
        cases habs
      · simp [hc, hne]
      · intro f hf
        rw [hc] at hf
        cases hf
        have hmem := finalCandidates_subset hcmem
        obtain ⟨hfa, hft, _⟩ := mem_datedCandidates hmem
        exact ⟨hmem, hfa, hft⟩

theorem selectFactForRow_uniq_le_count (stmtCode : String) (srow : PRow)
    (facts : List Fact) (tdd : Option Nat) (tq : Option Int) :
    (selectFactForRow stmtCode srow facts tdd tq).2.2 ≤
      (selectFactForRow stmtCode srow facts tdd tq).2.1 := by
  unfold selectFactForRow
  by_cases h1 : (tagVersionMatches srow facts).isEmpty
  · simp [h1]
  · rw [if_neg h1]
    by_cases h3 : (datedCandidates stmtCode srow facts tq).isEmpty
    · simp [h3]
    · rw [if_neg h3]
      dsimp only
      exact uniqueValueCount_le_length _

theorem buildRow_report (adsh stmtCode : String) (tdd : Option Nat)
    (tq : Option Int) (fits : List Fact) (srow : PRow) :
    (buildRow adsh stmtCode tdd tq fits srow).report = srow.report := rfl

theorem buildRow_line (adsh stmtCode : String) (tdd : Option Nat)
    (tq : Option Int) (fits : List Fact) (srow : PRow) :
    (buildRow adsh stmtCode tdd tq fits srow).line = srow.line := rfl

theorem buildRow_tag (adsh stmtCode : String) (tdd : Option Nat)
    (tq : Option Int) (fits : List Fact) (srow : PRow) :
    (buildRow adsh stmtCode tdd tq fits srow).tag = srow.tag := rfl

theorem buildRow_counts (adsh stmtCode : String) (tdd : Option Nat)
    (tq : Option Int) (fits : List Fact) (srow : PRow) :
    (buildRow adsh stmtCode tdd tq fits srow).candidateCount =
        some (selectFactForRow stmtCode srow fits tdd tq).2.1 ∧
    (buildRow adsh stmtCode tdd tq fits srow).candidateUniqueValues =
        some (selectFactForRow stmtCode srow fits tdd tq).2.2 ∧
    (buildRow adsh stmtCode tdd tq fits srow).candidateConflict =
        some (decide (1 < (selectFactForRow stmtCode srow fits tdd tq).2.1) &&
          decide (1 < (selectFactForRow stmtCode srow fits tdd tq).2.2)) :=
  ⟨rfl, rfl, rfl⟩

theorem buildRow_flags (adsh stmtCode : String) (tdd : Option Nat)
    (tq : Option Int) (fits : List Fact) (srow : PRow) :
    (buildRow adsh stmtCode tdd tq fits srow).hasValue =
      ((buildRow adsh stmtCode tdd tq fits srow).value).isSome ∧
    (((buildRow adsh stmtCode tdd tq fits srow).displayValue).isSome = true →
      ((buildRow adsh stmtCode tdd tq fits srow).value).isSome = true) ∧
    (((buildRow adsh stmtCode tdd tq fits srow).formattedValue).isSome = true →
      ((buildRow adsh stmtCode tdd tq fits srow).displayValue).isSome = true) := by
  unfold buildRow
  dsimp only
  cases hch : (selectFactForRow stmtCode srow fits tdd tq).1 with
  | none => simp [formatDisplayValue]
  | some c =>
      cases hv : c.value with
      | none => simp [hv, formatDisplayValue]
      | some v => simp [hv]

theorem buildRow_display (adsh stmtCode : String) (tdd : Option Nat)
    (tq : Option Int) (fits : List Fact) (srow : PRow) :
    ∀ d, (buildRow adsh stmtCode tdd tq fits srow).displayValue = some d →
      ∃ v, (buildRow adsh stmtCode tdd tq fits srow).value = some v ∧
        d = applySignRules stmtCode srow.tag v (srow.negating.getD "") := by
  unfold buildRow
  dsimp only
  cases hch : (selectFactForRow stmtCode srow fits tdd tq).1 with
  | none =>
      dsimp only
      intro d hd
      exact Option.noConfusion hd
  | some c =>
      dsimp only
      cases hv : c.value with
      | none =>
          intro d hd
          simp only [hv] at hd
          exact Option.noConfusion hd
      | some v =>
          intro d hd
          simp only [hv, Option.some.injEq] at hd
          refine ⟨v, by simp [hv], hd.symm⟩

theorem ciRow_tag (adsh t : String) (j : Nat) (c : Fact)
    (lbl : String → Option String) : (ciRow adsh t j c lbl).tag = t := rfl

theorem ciRow_diagnostics (adsh t : String) (j : Nat) (c : Fact)
    (lbl : String → Option String) :
    (ciRow adsh t j c lbl).candidateCount = none ∧
    (ciRow adsh t j c lbl).candidateUniqueValues = none ∧
    (ciRow adsh t j c lbl).candidateConflict = none :=
  ⟨rfl, rfl, rfl⟩

theorem ciRow_flags (adsh t : String) (j : Nat) (c : Fact)
    (lbl : String → Option String) :
    (ciRow adsh t j c lbl).hasValue = ((ciRow adsh t j c lbl).value).isSome ∧
    (((ciRow adsh t j c lbl).displayValue).isSome = true →
      ((ciRow adsh t j c lbl).value).isSome = true) ∧
    (((ciRow adsh t j c lbl).formattedValue).isSome = true →
      ((ciRow adsh t j c lbl).displayValue).isSome = true) := by
  unfold ciRow
  dsimp only
  cases hv : c.value with
  | none => simp [hv, formatDisplayValue]
  | some v => simp [hv]

theorem mem_ciRows {adsh : String} {cand : List Fact}
    {lbl : String → Option String} {r : StatementRow} :
    ∀ {i : Nat} {ts : List String}, r ∈ ciRows adsh cand lbl i ts →
      ∃ t j c,
        choosePreferredFact (cand.filter (fun f => f.tag == t)) true = some c ∧
        r = ciRow adsh t j c lbl := by
  intro i ts
  induction ts generalizing i with
  | nil => intro h; cases h
  | cons t ts ih =>
      intro h
      unfold ciRows at h
      cases hch : choosePreferredFact (cand.filter (fun f => f.tag == t)) true with
      | none =>
          rw [hch] at h
          dsimp only at h
          exact ih h
      | some c =>
          rw [hch] at h
          dsimp only at h
          rcases List.mem_cons.mp h with he | hm
          · exact ⟨t, i, c, hch, he⟩
          · exact ih hm

theorem mem_reconstruct_main {adsh : String} {structureRows : List PRow}
    {facts : List Fact} {stmtCode : String} {dd : Option Nat} {qq : Option Int}
    {lbl : String → Option String} {r : StatementRow}
    (hs : ¬ structureRows.isEmpty = true)
    (hr : r ∈ reconstructStatementTable adsh structureRows facts stmtCode dd qq lbl) :
    ∃ srow tdd tqq fits, srow ∈ sortStructure structureRows ∧
      r = buildRow adsh stmtCode tdd tqq fits srow := by
  unfold reconstructStatementTable at hr
  rw [if_neg hs] at hr
  dsimp only at hr
  rw [List.mem_map] at hr
  obtain ⟨srow, hsrow, heq⟩ := hr
  exact ⟨srow, _, _, _, hsrow, heq.symm⟩

theorem mem_reconstruct_ci {adsh : String} {facts : List Fact}
    {stmtCode : String} {dd : Option Nat} {qq : Option Int}
    {lbl : String → Option String} {r : StatementRow}
    {structureRows : List PRow}
    (hs : structureRows.isEmpty = true)
    (hr : r ∈ reconstructStatementTable adsh structureRows facts stmtCode dd qq lbl) :
    ∃ t j c,
      choosePreferredFact
        ((ciCandidates facts dd qq).filter (fun f => f.tag == t)) true = some c ∧
      r = ciRow adsh t j c lbl := by
  unfold reconstructStatementTable at hr
  rw [if_pos hs] at hr
  by_cases hci : (stmtCode == "CI") = true
  · rw [if_pos hci] at hr
    unfold reconstructCiFallback at hr
    by_cases hf : facts.isEmpty
    · rw [if_pos hf] at hr
      cases hr
    · rw [if_neg hf] at hr
      dsimp only at hr
      rw [List.mem_insertionSort] at hr
      exact mem_ciRows hr
  · rw [if_neg hci] at hr
    cases hr

theorem applySign_cf_neg {tag : String} (v : Rat) (neg : String)
    (h : cfNegKeyword tag = true) : applySignRules "CF" tag v neg ≤ 0 := by
  have hcf : (("CF" : String) == "CF") = true := by decide
  have heq : (("CF" : String) == "EQ") = false := by decide
  simp only [applySignRules, hcf, heq, h, if_true, if_false, Bool.false_eq_true]
  exact neg_nonpos.mpr (abs_nonneg _)

theorem applySign_cf_pos {tag : String} (v : Rat) (neg : String)
    (hp : cfPosKeyword tag = true) (hn : cfNegKeyword tag = false) :
    0 ≤ applySignRules "CF" tag v neg := by
  have hcf : (("CF" : String) == "CF") = true := by decide
  have heq : (("CF" : String) == "EQ") = false := by decide
  simp only [applySignRules, hcf, heq, hp, hn, if_true, if_false,
    Bool.false_eq_true]
  exact abs_nonneg _

theorem applySign_eq_neg {tag : String} (v : Rat) (neg : String)
    (h : eqNegKeyword tag = true) : applySignRules "EQ" tag v neg ≤ 0 := by
  have hcf : (("EQ" : String) == "CF") = false := by decide
  have heq : (("EQ" : String) == "EQ") = true := by decide
  simp only [applySignRules, hcf, heq, h, if_true, if_false, Bool.false_eq_true]
  exact neg_nonpos.mpr (abs_nonneg _)

theorem cfNegKeyword_of_repurchase {tag : String}
    (h : strContains (strToLower tag) "repurchase" = true) :
    cfNegKeyword tag = true := by
  unfold cfNegKeyword
  simp only [List.any_cons, List.any_nil, Bool.or_eq_true]
  exact Or.inr (Or.inl h)

theorem roundCents_neg1234 : roundCents (-1234 : Rat) = -123400 := by
  norm_num [roundCents, roundHalfEven]

theorem roundCents_half : roundCents (2469 / 2 : Rat) = 123450 := by
  norm_num [roundCents, roundHalfEven]

theorem roundCents_pos1234 : roundCents (1234 : Rat) = 123400 := by
  norm_num [roundCents, roundHalfEven]

/-- C9: the display-value formatter satisfies the formatting law:
`format(-1234.0) = "(1,234)"`, `format(1234.5) = "1,234.50"`,
`format(None) = None`; in general every non-null value rounds to cents and
formats to some text, a value that rounds negative is wrapped in
parentheses instead of a minus sign, and a value that rounds non-negative
renders as the plain (whole-grouped or two-decimal) text of its rounded
magnitude. -/
theorem claimC9_formatting :
    formatDisplayValue (some (-1234 : Rat)) = some "(1,234)" ∧
    formatDisplayValue (some (2469 / 2 : Rat)) = some "1,234.50" ∧
    formatDisplayValue none = none ∧
    (∀ q : Rat, ∃ s, formatDisplayValue (some q) = some s) ∧
    (∀ q : Rat, roundCents q < 0 →
      ∃ t, formatDisplayValue (some q) = some ("(" ++ t ++ ")")) ∧
    (∀ q : Rat, 0 ≤ roundCents q →
      formatDisplayValue (some q) = some (absCentsText (roundCents q))) := by
  refine ⟨?_, ?_, rfl, fun q => ⟨_, rfl⟩, ?_, ?_⟩
  · simp only [formatDisplayValue, roundCents_neg1234]
    decide
  · simp only [formatDisplayValue, roundCents_half]
    decide
  · intro q h
    exact ⟨absCentsText (roundCents q), by simp [formatDisplayValue, h]⟩
  · intro q h
    simp [formatDisplayValue, if_neg (not_lt.mpr h)]

/-- C9 witness: the parenthesised and plain branches at the concrete inputs
−1234 and 1234. -/
theorem claimC9_formatting_witness :
    (∃ t, formatDisplayValue (some (-1234 : Rat)) = some ("(" ++ t ++ ")")) ∧
    formatDisplayValue (some (1234 : Rat)) =
      some (absCentsText (roundCents (1234 : Rat))) := by
  constructor
  · exact claimC9_formatting.2.2.2.2.1 (-1234 : Rat)
      (by rw [roundCents_neg1234]; decide)
  · exact claimC9_formatting.2.2.2.2.2 (1234 : Rat)
      (by rw [roundCents_pos1234]; decide)

/-- C4 counterexample: the US-GAAP tag "ProceedsFromRepurchaseOfEquity"
references proceeds (so the claim's "tags referencing proceeds/issuance/
borrowings are forced positive" demands a non-negative display), yet the
code's payment-family branch fires first and forces the value negative:
`_apply_sign_rules("CF", tag, 5, "0") = -5 < 0`. -/
theorem claimC4_counterexample :
    cfPosKeyword "ProceedsFromRepurchaseOfEquity" = true ∧
    applySignRules "CF" "ProceedsFromRepurchaseOfEquity" 5 "0" = -5 ∧
    ¬ (0 ≤ applySignRules "CF" "ProceedsFromRepurchaseOfEquity" 5 "0") := by
  exact ⟨by decide, by decide, by decide⟩

/-- C4 (amended): on the cash-flow statement a selected fact for a tag
containing "Repurchase" (case-insensitive) always displays ≤ 0, for any
negation flag; payment/repurchase/repay/purchase tags are forced negative;
proceeds/issuance/borrowings tags NOT ALSO matching a payment-family
keyword are forced positive; and on the equity statement
dividend/repurchase/purchases/payment tags are forced negative. -/
theorem claimC4_amended :
    (∀ (tag : String) (v : Rat) (neg : String), cfNegKeyword tag = true →
      applySignRules "CF" tag v neg ≤ 0) ∧
    (∀ (tag : String) (v : Rat) (neg : String),
      cfPosKeyword tag = true → cfNegKeyword tag = false →
      0 ≤ applySignRules "CF" tag v neg) ∧
    (∀ (tag : String) (v : Rat) (neg : String), eqNegKeyword tag = true →
      applySignRules "EQ" tag v neg ≤ 0) ∧
    (∀ (adsh : String) (structureRows : List PRow) (facts : List Fact)
      (dd : Option Nat) (qq : Option Int) (lbl : String → Option String)
      (r : StatementRow),
      r ∈ reconstructStatementTable adsh structureRows facts "CF" dd qq lbl →
      strContains (strToLower r.tag) "repurchase" = true →
      ∀ d, r.displayValue = some d → d ≤ 0) := by
  refine ⟨fun tag v neg h => applySign_cf_neg v neg h,
    fun tag v neg hp hn => applySign_cf_pos v neg hp hn,
    fun tag v neg h => applySign_eq_neg v neg h, ?_⟩
  intro adsh structureRows facts dd qq lbl r hr htag d hd
  by_cases hs : structureRows.isEmpty
  · unfold reconstructStatementTable at hr
    rw [if_pos hs, if_neg (by decide)] at hr
    cases hr
  · obtain ⟨srow, tdd, tqq, fits, _, rfl⟩ := mem_reconstruct_main hs hr
    obtain ⟨v, hv, hdv⟩ := buildRow_display adsh "CF" tdd tqq fits srow d hd
    rw [buildRow_tag] at htag
    rw [hdv]
    exact applySign_cf_neg v (srow.negating.getD "")
      (cfNegKeyword_of_repurchase htag)

/-- C4 witness: a repurchase-tagged cash-flow row produced by the table
assembler displays a non-positive value at a concrete input. -/
theorem claimC4_amended_witness :
    applySignRules "CF" "PaymentsForRepurchaseOfCommonStock" 7 "0" ≤ 0 ∧
    0 ≤ applySignRules "CF" "ProceedsFromIssuanceOfCommonStock" (-3) "0" ∧
    applySignRules "EQ" "PaymentsOfDividends" 9 "0" ≤ 0 := by
  refine ⟨claimC4_amended.1 "PaymentsForRepurchaseOfCommonStock" 7 "0" (by decide),
    claimC4_amended.2.1 "ProceedsFromIssuanceOfCommonStock" (-3) "0" (by decide)
      (by decide),
    claimC4_amended.2.2.1 "PaymentsOfDividends" 9 "0" (by decide)⟩

/-- Example fixtures used by the witness theorems. -/
def exRowA : PRow :=
  { report := 2, line := 1, inpth := 0, rfile := some "H", tag := "Assets",
    version := some "us-gaap/2023", plabel := some "Total assets",
    negating := some "0" }

/-- Second presentation-row fixture (appears before `exRowA` in file order
but after it in (report, line) order). -/
def exRowB : PRow :=
  { report := 2, line := 2, inpth := 0, rfile := some "H",
    tag := "LiabilitiesAndStockholdersEquity", version := some "us-gaap/2023",
    plabel := some "Total liabilities and equity", negating := some "0" }

/-- The row the assembler produces for `exRowA` when the fact store is
empty. -/
def exEmptyRowA : StatementRow :=
  buildRow "a-1" "BS" none none [] exRowA

/-- C1: for a filing/statement with a non-empty presentation structure the
reconstructed table has exactly one output row per presentation row, in the
order given by sorting the presentation rows by (report, line), with
matching tags — no row is reordered, merged, or dropped, and a row whose
fact cannot be resolved is still emitted with has_value false (null value)
rather than omitted. -/
theorem claimC1_row_parity (adsh : String) (structureRows : List PRow)
    (facts : List Fact) (stmtCode : String) (dd : Option Nat) (qq : Option Int)
    (lbl : String → Option String) (hs : structureRows ≠ []) :
    (reconstructStatementTable adsh structureRows facts stmtCode dd qq lbl).length
        = structureRows.length ∧
    (reconstructStatementTable adsh structureRows facts stmtCode dd qq lbl).map
        (fun r => (r.report, r.line)) =
      (sortStructure structureRows).map (fun p => (p.report, p.line)) ∧
    (reconstructStatementTable adsh structureRows facts stmtCode dd qq lbl).map
        StatementRow.tag = (sortStructure structureRows).map PRow.tag ∧
    ∀ r ∈ reconstructStatementTable adsh structureRows facts stmtCode dd qq lbl,
      r.hasValue = false → r.value = none := by
  have hne : ¬ structureRows.isEmpty = true := by
    simpa [List.isEmpty_iff] using hs
  unfold reconstructStatementTable
  rw [if_neg hne]
  dsimp only
  refine ⟨?_, ?_, ?_, ?_⟩
  · rw [List.length_map, sortStructure, List.length_insertionSort]
  · rw [List.map_map]
    exact List.map_congr_left (fun p _ => rfl)
  · rw [List.map_map]
    exact List.map_congr_left (fun p _ => rfl)
  · intro r hr hfalse
    rw [List.mem_map] at hr
    obtain ⟨p, _, rfl⟩ := hr
    rcases buildRow_flags adsh stmtCode
      (if dd.isNone = true then
        (if (dd.isNone || qq.isNone) = true then
          resolveStatementContext facts stmtCode
            (List.map PRow.tag (sortStructure structureRows))
         else (none, none)).1
       else dd)
      (if qq.isNone = true then
        (if (dd.isNone || qq.isNone) = true then
          resolveStatementContext facts stmtCode
            (List.map PRow.tag (sortStructure structureRows))
         else (none, none)).2
       else qq)
      (List.filter (fun f =>
        (List.map PRow.tag (sortStructure structureRows)).contains f.tag) facts)
      p with ⟨h1, -, -⟩
    rw [hfalse] at h1
    cases hv : (buildRow adsh stmtCode _ _ _ p).value
    · rfl
    · rw [hv] at h1
      cases h1

/-- C1 witness: a concrete two-row structure, supplied in reversed file
order, is reconstructed as exactly two rows in sorted (report, line)
order. -/
theorem claimC1_row_parity_witness :
    (reconstructStatementTable "a-1" [exRowB, exRowA] [] "BS" none none
        (fun _ => none)).length = 2 ∧
    (reconstructStatementTable "a-1" [exRowB, exRowA] [] "BS" none none
        (fun _ => none)).map (fun r => (r.report, r.line)) =
      [(2, 1), (2, 2)] ∧
    (reconstructStatementTable "a-1" [exRowB, exRowA] [] "BS" none none
        (fun _ => none)).map StatementRow.tag =
      ["Assets", "LiabilitiesAndStockholdersEquity"] := by
  have h := claimC1_row_parity "a-1" [exRowB, exRowA] [] "BS" none none
    (fun _ => none) (by decide)
  exact ⟨h.1.trans (by decide), (h.2.1).trans (by decide),
    (h.2.2.1).trans (by decide)⟩

/-- C3 witness: with an empty fact store no candidate survives and the
selector returns the clean "no fact" triple. -/
theorem claimC3_selection_narrowing_witness :
    selectFactForRow "BS" exRowA [] none none = (none, 0, 0) :=
  (claimC3_selection_narrowing "BS" exRowA [] none none).1 (by decide)

/-- C8: on every output row, more than one distinct non-null candidate value
forces the conflict flag true, and at most one final-stage candidate forces
it false (fallback CI rows carry no candidate diagnostics, so the claim
holds for them vacuously). -/
theorem claimC8_conflict_flag (adsh : String) (structureRows : List PRow)
    (facts : List Fact) (stmtCode : String) (dd : Option Nat) (qq : Option Int)
    (lbl : String → Option String) :
    ∀ r ∈ reconstructStatementTable adsh structureRows facts stmtCode dd qq lbl,
      (∀ u, r.candidateUniqueValues = some u → 1 < u →
        r.candidateConflict = some true) ∧
      (∀ c, r.candidateCount = some c → c ≤ 1 →
        r.candidateConflict = some false) := by
  intro r hr
  by_cases hs : structureRows.isEmpty
  · obtain ⟨t, j, c, _, rfl⟩ := mem_reconstruct_ci hs hr
    obtain ⟨h1, h2, _⟩ := ciRow_diagnostics adsh t j c lbl
    constructor
    · intro u hu
      rw [h2] at hu
      cases hu
    · intro n hn
      rw [h1] at hn
      cases hn
  · obtain ⟨srow, tdd, tqq, fits, _, rfl⟩ := mem_reconstruct_main hs hr
    obtain ⟨h1, h2, h3⟩ := buildRow_counts adsh stmtCode tdd tqq fits srow
    have hle := selectFactForRow_uniq_le_count stmtCode srow fits tdd tqq
    constructor
    · intro u hu hlt
      rw [h2] at hu
      injection hu with hu
      have huniq : 1 < (selectFactForRow stmtCode srow fits tdd tqq).2.2 :=
        hu ▸ hlt
      have hcnt : 1 < (selectFactForRow stmtCode srow fits tdd tqq).2.1 :=
        lt_of_lt_of_le huniq hle
      rw [h3]
      simp [hcnt, huniq]
    · intro n hn hle1
      rw [h1] at hn
      injection hn with hn
      have hncnt : ¬ 1 < (selectFactForRow stmtCode srow fits tdd tqq).2.1 := by
        omega
      rw [h3]
      simp [hncnt]

/-- C8 witness: a single-candidate-free row carries conflict flag false. -/
theorem claimC8_conflict_flag_witness :
    exEmptyRowA.candidateConflict = some false :=
  ((claimC8_conflict_flag "a-1" [exRowB, exRowA] [] "BS" none none
      (fun _ => none) exEmptyRowA (by decide)).2) 0 (by decide) (by decide)

/-- C10: every output row of `reconstruct_statement_table`, including the
comprehensive-income fallback rows, has `has_value` true exactly when its
value is non-null, and any non-null display or formatted value implies
`has_value`. -/
theorem claimC10_has_value_faithful (adsh : String) (structureRows : List PRow)
    (facts : List Fact) (stmtCode : String) (dd : Option Nat) (qq : Option Int)
    (lbl : String → Option String) :
    ∀ r ∈ reconstructStatementTable adsh structureRows facts stmtCode dd qq lbl,
      (r.hasValue = true ↔ (r.value).isSome = true) ∧
      ((r.displayValue).isSome = true → r.hasValue = true) ∧
      ((r.formattedValue).isSome = true → r.hasValue = true) := by
  intro r hr
  by_cases hs : structureRows.isEmpty
  · obtain ⟨t, j, c, _, rfl⟩ := mem_reconstruct_ci hs hr
    obtain ⟨h1, h2, h3⟩ := ciRow_flags adsh t j c lbl
    refine ⟨by rw [h1], fun h => ?_, fun h => ?_⟩
    · rw [h1]
      exact h2 h
    · rw [h1]
      exact h2 (h3 h)
  · obtain ⟨srow, tdd, tqq, fits, _, rfl⟩ := mem_reconstruct_main hs hr
    obtain ⟨h1, h2, h3⟩ := buildRow_flags adsh stmtCode tdd tqq fits srow
    refine ⟨by rw [h1], fun h => ?_, fun h => ?_⟩
    · rw [h1]
      exact h2 h
    · rw [h1]
      exact h2 (h3 h)

/-- C10 witness: the faithfulness equivalence at a concrete unvalued row. -/
theorem claimC10_has_value_faithful_witness :
    exEmptyRowA.hasValue = true ↔ (exEmptyRowA.value).isSome = true :=
  (claimC10_has_value_faithful "a-1" [exRowB, exRowA] [] "BS" none none
    (fun _ => none) exEmptyRowA (by decide)).1

/-- C5: the context-coherence check passes a cash-flow table iff among the
distinct (date, duration) contexts of valued rows there is at most one
duration context and at most two instant contexts; it always passes an
equity table; and for any other statement code with at least one valued
row it passes iff exactly one distinct context appears. -/
theorem claimC5_context_coherence (stmtCode : String)
    (table : List StatementRow) :
    (stmtCode = "CF" →
      ((contextCoherenceForStatement stmtCode table).passed = true ↔
        (durationContexts table).length ≤ 1 ∧
          (instantContexts table).length ≤ 2)) ∧
    (stmtCode = "EQ" →
      (contextCoherenceForStatement stmtCode table).passed = true) ∧
    (stmtCode ≠ "CF" → stmtCode ≠ "EQ" → valuedContexts table ≠ [] →
      ((contextCoherenceForStatement stmtCode table).passed = true ↔
        (valuedContexts table).length = 1)) := by
  refine ⟨?_, ?_, ?_⟩
  · rintro rfl
    unfold contextCoherenceForStatement
    by_cases ht : table.isEmpty
    · have heq : table = [] := List.isEmpty_iff.mp ht
      subst heq
      simp [valuedContexts, durationContexts, instantContexts]
    · rw [if_neg ht]
      by_cases hv : (valuedContexts table).isEmpty
      · have hnil : valuedContexts table = [] := List.isEmpty_iff.mp hv
        rw [if_pos hv]
        simp [durationContexts, instantContexts, hnil]
      · rw [if_neg hv, if_pos (by decide : (("CF" : String) == "CF") = true)]
        simp [Bool.and_eq_true, decide_eq_true_eq]
  · rintro rfl
    unfold contextCoherenceForStatement
    by_cases ht : table.isEmpty
    · rw [if_pos ht]
    · rw [if_neg ht]
      by_cases hv : (valuedContexts table).isEmpty
      · rw [if_pos hv]
      · rw [if_neg hv,
          if_neg (by decide : ¬ (("EQ" : String) == "CF") = true),
          if_pos (by decide : (("EQ" : String) == "EQ") = true)]
  · intro hcf heq hvne
    unfold contextCoherenceForStatement
    have ht : ¬ table.isEmpty = true := by
      intro h
      have heq' : table = [] := List.isEmpty_iff.mp h
      subst heq'
      exact hvne rfl
    rw [if_neg ht]
    have hv : ¬ (valuedContexts table).isEmpty = true := by
      simpa [List.isEmpty_iff] using hvne
    rw [if_neg hv]
    rw [if_neg (by simp [beq_iff_eq, hcf] :
      ¬ (stmtCode == "CF") = true)]
    rw [if_neg (by simp [beq_iff_eq, heq] :
      ¬ (stmtCode == "EQ") = true)]
    have hpos : 0 < (valuedContexts table).length :=
      List.length_pos.mpr hvne
    simp only [decide_eq_true_eq]
    omega

/-- Table fixture with three distinct instant contexts among valued rows. -/
def exCfInstantRow (line : Int) (d : Nat) : StatementRow :=
  { adsh := "a-1", stmt := "CF", report := 5, line := line, inpth := 0,
    rfile := some "H",
    tag := "CashCashEquivalentsRestrictedCashAndRestrictedCashEquivalents",
    version := none, label := "Cash", negating := some "0", value := some 1,
    displayValue := some 1, formattedValue := none, uom := some "USD",
    ddate := some d, qtrs := some 0, segments := none, coreg := none,
    candidateCount := some 1, candidateUniqueValues := some 1,
    candidateConflict := some false, hasValue := true }

/-- C5 witness: a cash-flow table with three distinct instant contexts among
valued rows fails the coherence check. -/
theorem claimC5_context_coherence_witness :
    (contextCoherenceForStatement "CF"
      [exCfInstantRow 1 20211231, exCfInstantRow 2 20221231,
        exCfInstantRow 3 20231231]).passed = false := by
  have h := (claimC5_context_coherence "CF"
    [exCfInstantRow 1 20211231, exCfInstantRow 2 20221231,
      exCfInstantRow 3 20231231]).1 rfl
  have hrhs : ¬ ((durationContexts
      [exCfInstantRow 1 20211231, exCfInstantRow 2 20221231,
        exCfInstantRow 3 20231231]).length ≤ 1 ∧
      (instantContexts
        [exCfInstantRow 1 20211231, exCfInstantRow 2 20221231,
          exCfInstantRow 3 20231231]).length ≤ 2) := by decide
  cases hp : (contextCoherenceForStatement "CF"
      [exCfInstantRow 1 20211231, exCfInstantRow 2 20221231,
        exCfInstantRow 3 20231231]).passed
  · rfl
  · exact absurd (h.mp hp) hrhs

/-- C6: for a table whose first valued Assets row displays `a` and whose
first valued LiabilitiesAndStockholdersEquity row displays `l`, the BS
subtotal check is exactly one check named
"assets_equals_liabilities_and_equity" that passes iff `|a − l| < 1` and
reports `delta = a − l`. -/
theorem claimC6_bs_subtotal (table : List StatementRow) (ra rl : StatementRow)
    (a l : Rat)
    (hA : ((table.filter StatementRow.hasValue).filter
        (fun r => r.tag == "Assets")).head? = some ra)
    (hAv : ra.displayValue = some a)
    (hL : ((table.filter StatementRow.hasValue).filter
        (fun r => r.tag == "LiabilitiesAndStockholdersEquity")).head? = some rl)
    (hLv : rl.displayValue = some l) :
    runSubtotalChecks "BS" table =
      [⟨"assets_equals_liabilities_and_equity", decide (|a - l| < 1), a - l,
        none, none⟩] := by
  have hvne : ¬ (table.filter StatementRow.hasValue).isEmpty = true := by
    intro h
    rw [List.isEmpty_iff] at h
    rw [h] at hA
    simp at hA
  have htne : ¬ table.isEmpty = true := by
    intro h
    rw [List.isEmpty_iff] at h
    subst h
    simp at hvne
  unfold runSubtotalChecks
  rw [if_neg htne]
  dsimp only
  rw [if_neg hvne]
  rw [if_pos (by decide : (("BS" : String) == "BS") = true)]
  rw [if_neg (by decide : ¬ (("BS" : String) == "CF") = true)]
  rw [hA, hL]
  dsimp only
  rw [hAv, hLv]
  simp

/-- Valued literal row fixtures for the subtotal witnesses. -/
def exSubRow (tag : String) (line : Int) (v : Rat) : StatementRow :=
  { adsh := "a-1", stmt := "BS", report := 2, line := line, inpth := 0,
    rfile := some "H", tag := tag, version := none, label := tag,
    negating := some "0", value := some v, displayValue := some v,
    formattedValue := none, uom := some "USD", ddate := some 20231231,
    qtrs := some 0, segments := none, coreg := none,
    candidateCount := some 1, candidateUniqueValues := some 1,
    candidateConflict := some false, hasValue := true }

/-- C6 witness: Assets = 1,000,000 versus L&SE = 1,000,000 passes with
delta 0; Assets = 1,000,000 versus L&SE = 999,000 fails. -/
theorem claimC6_bs_subtotal_witness :
    runSubtotalChecks "BS"
        [exSubRow "Assets" 1 1000000,
          exSubRow "LiabilitiesAndStockholdersEquity" 2 1000000] =
      [⟨"assets_equals_liabilities_and_equity", true, 0, none, none⟩] ∧
    runSubtotalChecks "BS"
        [exSubRow "Assets" 1 1000000,
          exSubRow "LiabilitiesAndStockholdersEquity" 2 999000] =
      [⟨"assets_equals_liabilities_and_equity", false, 1000, none, none⟩] := by
  constructor
  · rw [claimC6_bs_subtotal _ (exSubRow "Assets" 1 1000000)
      (exSubRow "LiabilitiesAndStockholdersEquity" 2 1000000)
      1000000 1000000 (by decide) rfl (by decide) rfl]
    have h1 : (1000000 - 1000000 : Rat) = 0 := by norm_num
    rw [h1]
    decide
  · rw [claimC6_bs_subtotal _ (exSubRow "Assets" 1 1000000)
      (exSubRow "LiabilitiesAndStockholdersEquity" 2 999000)
      1000000 999000 (by decide) rfl (by decide) rfl]
    have h1 : (1000000 - 999000 : Rat) = 1000 := by norm_num
    rw [h1]
    decide

theorem ciRows_map_tag {adsh : String} {cand : List Fact}
    {lbl : String → Option String} :
    ∀ {i : Nat} {ts : List String}, (∀ t ∈ ts, ∃ f ∈ cand, f.tag = t) →
      (ciRows adsh cand lbl i ts).map StatementRow.tag = ts := by
  intro i ts
  induction ts generalizing i with
  | nil => intro _; rfl
  | cons t ts ih =>
      intro h
      unfold ciRows
      obtain ⟨f, hf, hft⟩ := h t (List.mem_cons_self t ts)
      have hne : cand.filter (fun g => g.tag == t) ≠ [] := by
        intro hc
        have hmem : f ∈ cand.filter (fun g => g.tag == t) := by
          rw [List.mem_filter]
          exact ⟨hf, by simp [hft]⟩
        rw [hc] at hmem
        exact absurd hmem (List.not_mem_nil f)
      obtain ⟨c, hc, _⟩ := choosePreferredFact_some true hne
      rw [hc]
      dsimp only
      rw [List.map_cons, ciRow_tag]
      congr 1
      exact ih (fun t' ht' => h t' (List.mem_cons_of_mem t ht'))

theorem ciRows_line_ge {adsh : String} {cand : List Fact}
    {lbl : String → Option String} :
    ∀ {i : Nat} {ts : List String} {r : StatementRow},
      r ∈ ciRows adsh cand lbl i ts → (i : Int) ≤ r.line := by
  intro i ts
  induction ts generalizing i with
  | nil => intro r h; cases h
  | cons t ts ih =>
      intro r h
      unfold ciRows at h
      cases hch : choosePreferredFact (cand.filter (fun f => f.tag == t)) true with
      | none =>
          rw [hch] at h
          dsimp only at h
          have hge := ih h
          have : ((i : Int)) ≤ ((i + 1 : Nat) : Int) := by
            push_cast
            omega
          exact le_trans this hge
      | some c =>
          rw [hch] at h
          dsimp only at h
          rcases List.mem_cons.mp h with he | hm
          · subst he
            exact le_refl _
          · have hge := ih hm
            have : ((i : Int)) ≤ ((i + 1 : Nat) : Int) := by
              push_cast
              omega
            exact le_trans this hge

theorem ciRows_sorted_line {adsh : String} {cand : List Fact}
    {lbl : String → Option String} :
    ∀ {i : Nat} {ts : List String},
      (ciRows adsh cand lbl i ts).Sorted lineLe := by
  intro i ts
  induction ts generalizing i with
  | nil => exact List.sorted_nil
  | cons t ts ih =>
      unfold ciRows
      cases hch : choosePreferredFact (cand.filter (fun f => f.tag == t)) true with
      | none => exact ih
      | some c =>
          rw [List.sorted_cons]
          refine ⟨fun b hb => ?_, ih⟩
          have hge := ciRows_line_ge hb
          show (ciRow adsh t i c lbl).line ≤ b.line
      -- (ciRow …).line = (i : Int); (i : Int) ≤ (i+1 : Int) ≤ b.line
          have hline : (ciRow adsh t i c lbl).line = (i : Int) := rfl
          rw [hline]
          have : ((i : Int)) ≤ ((i + 1 : Nat) : Int) := by
            push_cast
            omega
          exact le_trans this hge

/-- C7: with zero presentation rows for code "CI", the table assembler
synthesizes exactly one row per distinct qualifying
"ComprehensiveIncome"-tagged fact tag, in ascending (deterministic) tag
order, each row carrying the fact chosen by the candidate-ranking rule
(`_choose_preferred_fact`) from that tag's group. -/
theorem claimC7_ci_fallback (adsh : String) (facts : List Fact)
    (dd : Option Nat) (qq : Option Int) (lbl : String → Option String) :
    (reconstructStatementTable adsh [] facts "CI" dd qq lbl).map
        StatementRow.tag =
      (((ciCandidates facts dd qq).map Fact.tag).dedup).insertionSort
        (fun a b => a ≤ b) ∧
    ((reconstructStatementTable adsh [] facts "CI" dd qq lbl).map
        StatementRow.tag).Nodup ∧
    (∀ t, t ∈ (reconstructStatementTable adsh [] facts "CI" dd qq lbl).map
        StatementRow.tag ↔ t ∈ (ciCandidates facts dd qq).map Fact.tag) ∧
    ∀ r ∈ reconstructStatementTable adsh [] facts "CI" dd qq lbl,
      ∃ c, choosePreferredFact
          ((ciCandidates facts dd qq).filter (fun f => f.tag == r.tag)) true =
            some c ∧
        r.value = c.value ∧ r.ddate = c.ddate ∧ r.qtrs = c.qtrs ∧
        r.uom = c.uom ∧ r.hasValue = (c.value).isSome := by
  have hout : reconstructStatementTable adsh [] facts "CI" dd qq lbl =
      ciRows adsh (ciCandidates facts dd qq) lbl 1
        ((((ciCandidates facts dd qq).map Fact.tag).dedup).insertionSort
          (fun a b => a ≤ b)) := by
    unfold reconstructStatementTable
    rw [if_pos (by decide : ([] : List PRow).isEmpty = true),
      if_pos (by decide : (("CI" : String) == "CI") = true)]
    unfold reconstructCiFallback
    by_cases hf : facts.isEmpty
    · rw [if_pos hf]
      have heq : facts = [] := List.isEmpty_iff.mp hf
      subst heq
      have hcand : ciCandidates [] dd qq = [] := by
        unfold ciCandidates
        simp
      rw [hcand]
      rfl
    · rw [if_neg hf]
      dsimp only
      exact List.Sorted.insertionSort_eq ciRows_sorted_line
  have hmaptag : (reconstructStatementTable adsh [] facts "CI" dd qq lbl).map
      StatementRow.tag =
      (((ciCandidates facts dd qq).map Fact.tag).dedup).insertionSort
        (fun a b => a ≤ b) := by
    rw [hout]
    apply ciRows_map_tag
    intro t ht
    rw [List.mem_insertionSort, List.mem_dedup, List.mem_map] at ht
    obtain ⟨f, hf, hft⟩ := ht
    exact ⟨f, hf, hft⟩
  refine ⟨hmaptag, ?_, ?_, ?_⟩
  · rw [hmaptag]
    exact ((List.perm_insertionSort _ _).nodup_iff).mpr
      (List.nodup_dedup _)
  · intro t
    rw [hmaptag, List.mem_insertionSort, List.mem_dedup]
  · intro r hr
    rw [hout] at hr
    obtain ⟨t, j, c, hch, rfl⟩ := mem_ciRows hr
    exact ⟨c, hch, rfl, rfl, rfl, rfl, rfl⟩

/-- CI witness facts: two duration facts with the same tag at the latest
date, one segment-qualified (lower-ranked) and one consolidated. -/
def exCiSeg : Fact :=
  { tag := "ComprehensiveIncomeNetOfTax", version := some "us-gaap/2023",
    ddate := some 20231231, qtrs := some 4, uom := some "USD",
    segments := some "Segment=A;", coreg := none, value := some 999 }

/-- The consolidated twin of `exCiSeg`. -/
def exCiMain : Fact :=
  { tag := "ComprehensiveIncomeNetOfTax", version := some "us-gaap/2023",
    ddate := some 20231231, qtrs := some 4, uom := some "USD",
    segments := none, coreg := none, value := some 500 }

/-- C7 witness: exactly one row comes back for the tag, valued from the
higher-ranked (consolidated) of the two facts. -/
theorem claimC7_ci_fallback_witness :
    (reconstructStatementTable "a-1" [] [exCiSeg, exCiMain] "CI" none none
        (fun _ => none)).map StatementRow.tag =
      ["ComprehensiveIncomeNetOfTax"] ∧
    (reconstructStatementTable "a-1" [] [exCiSeg, exCiMain] "CI" none none
        (fun _ => none)).map StatementRow.value = [some 500] := by
  constructor
  · exact (claimC7_ci_fallback "a-1" [exCiSeg, exCiMain] none none
      (fun _ => none)).1.trans (by decide)
  · decide

theorem filterContextCandidates_eq (stmtCode : String) (tags : List String)
    (src : List Fact) :
    filterContextCandidates stmtCode tags src =
      src.filter (contextQualifies stmtCode tags) := by
  have hstep : filterContextCandidates stmtCode tags src =
      (src.filter (fun f => tags.contains f.tag)).filter
        (fun f =>
          if BALANCE_SHEET_CODES.contains stmtCode then f.qtrs == some 0
          else
            match f.qtrs with
            | some q => decide (0 < q)
            | none => false) := by
    unfold filterContextCandidates
    by_cases he : (src.filter (fun f => tags.contains f.tag)).isEmpty = true
    · rw [if_pos he, List.isEmpty_iff.mp he]
      rfl
    · rw [if_neg he]
      by_cases hb : BALANCE_SHEET_CODES.contains stmtCode = true
      · rw [if_pos hb]
        apply List.filter_congr
        intro f _
        rw [if_pos hb]
      · rw [if_neg hb]
        apply List.filter_congr
        intro f _
        rw [if_neg hb]
  rw [hstep, List.filter_filter]
  apply List.filter_congr
  intro f _
  unfold contextQualifies
  exact Bool.and_comm _ _

theorem primary_filter_eq (allFacts : List Fact) (stmtCode : String)
    (tags : List String) :
    allFacts.filter
        (fun f => contextQualifies stmtCode tags f && isPrimaryFact f) =
      (allFacts.filter
          (fun f => blankQual f.coreg && blankQual f.segments)).filter
        (contextQualifies stmtCode tags) := by
  rw [List.filter_filter]
  apply List.filter_congr
  intro f _
  unfold isPrimaryFact
  rfl

/-- C2 (amended): `_resolve_statement_context` computes exactly the (maximum
end date, duration mode) pair the spec describes — tag-set restriction,
instant/duration restriction by statement family, primary scope with
fallback only when the primary scope yields zero candidates, `(None, None)`
when nothing qualifies — with the duration-mode tie broken by the SMALLEST
tied duration (pandas returns modes in ascending order), not by
first-encountered order. -/
theorem claimC2_amended (allFacts : List Fact) (stmtCode : String)
    (tags : List String) :
    resolveStatementContext allFacts stmtCode tags =
      resolveStatementContextSpecMin allFacts stmtCode tags := by
  unfold resolveStatementContext resolveStatementContextSpecMin
  by_cases hall : allFacts.isEmpty = true
  · have heq : allFacts = [] := List.isEmpty_iff.mp hall
    subst heq
    simp
  · rw [if_neg hall]
    dsimp only
    have hpool : (if (filterContextCandidates stmtCode tags
          (primaryContextRows allFacts)).isEmpty = true then
        filterContextCandidates stmtCode tags allFacts
      else filterContextCandidates stmtCode tags (primaryContextRows allFacts)) =
      (if (allFacts.filter (fun f =>
            contextQualifies stmtCode tags f && isPrimaryFact f)).isEmpty = true then
        allFacts.filter (fun f => contextQualifies stmtCode tags f)
      else
        allFacts.filter (fun f =>
          contextQualifies stmtCode tags f && isPrimaryFact f)) := by
      rw [primary_filter_eq]
      unfold primaryContextRows
      rw [if_neg hall]
      dsimp only
      by_cases hp : (allFacts.filter
          (fun f => blankQual f.coreg && blankQual f.segments)).isEmpty = true
      · rw [if_pos hp, List.isEmpty_iff.mp hp]
        rw [filterContextCandidates_eq]
        simp
      · rw [if_neg hp, filterContextCandidates_eq, filterContextCandidates_eq]
    rw [hpool]
    by_cases hpe : (if (allFacts.filter (fun f =>
          contextQualifies stmtCode tags f && isPrimaryFact f)).isEmpty = true then
        allFacts.filter (fun f => contextQualifies stmtCode tags f)
      else
        allFacts.filter (fun f =>
          contextQualifies stmtCode tags f && isPrimaryFact f)).isEmpty = true
    · rw [if_pos hpe, List.isEmpty_iff.mp hpe]
      simp
    · rw [if_neg hpe]

/-- Fixture for the C2 counterexample: duration-4 fact encountered first. -/
def exModeF1 : Fact :=
  { tag := "T", version := none, ddate := some 20230101, qtrs := some 4,
    uom := none, segments := none, coreg := none, value := some 1 }

/-- Fixture for the C2 counterexample: duration-1 fact encountered second. -/
def exModeF2 : Fact :=
  { tag := "T", version := none, ddate := some 20230101, qtrs := some 1,
    uom := none, segments := none, coreg := none, value := some 2 }

/-- C2 counterexample: two qualifying primary duration facts share the
latest end date with durations 4 (first-encountered) and 1; the code's
pandas `mode().iloc[0]` yields the SMALLEST tied duration 1, while the
claim's first-encountered tie-break demands 4 — the two disagree. -/
theorem claimC2_counterexample :
    resolveStatementContext [exModeF1, exModeF2] "IS" ["T"] =
      (some 20230101, some 1) ∧
    resolveStatementContextSpecFirst [exModeF1, exModeF2] "IS" ["T"] =
      (some 20230101, some 4) ∧
    resolveStatementContext [exModeF1, exModeF2] "IS" ["T"] ≠
      resolveStatementContextSpecFirst [exModeF1, exModeF2] "IS" ["T"] := by
  exact ⟨by decide, by decide, by decide⟩

end SecRecon
